import Mathlib

/-!
Shallow embedding of the Keyboarder layout/export engine
(`src/utils/units.ts`, `src/utils/exporters.ts`, `src/utils/keys.ts`,
`src/state/store.ts`, `src/App.tsx`, `src/components/CanvasStage.tsx`)
over exact rational arithmetic.  Millimetre quantities, point quantities
and pixel quantities are all rationals; JavaScript `x || d` on numbers
(falsy on 0/undefined) is modelled by `jsOr`, `x ?? d` by `Option.getD`.
-/

/-- Paper size enum from `src/types.ts` (`PaperSize`). -/
inductive PaperSize where
  | a4 | letter | a3 | tabloid
deriving DecidableEq, Repr

/-- Page orientation from `src/types.ts`. -/
inductive PageOrient where
  | portrait | landscape
deriving DecidableEq, Repr

/-- `PaperSettings` from `src/types.ts`. -/
structure PaperSettings where
  size : PaperSize
  orient : PageOrient
  marginMm : ℚ
  dpi : ℚ
  snap : Option (Bool × ℚ)
deriving DecidableEq, Repr

/-- Key shape tag from `src/types.ts` (`keyType`). -/
inductive KeyType where
  | rect | isoEnter | bigEnter
deriving DecidableEq, Repr

/-- Element tag from `src/types.ts` (`'text' | 'image' | 'shape'`). -/
inductive ElemKind where
  | text | image | shape
deriving DecidableEq, Repr

/-- Image fit mode from `src/types.ts`. -/
inductive FitMode where
  | contain | cover
deriving DecidableEq, Repr

/-- Horizontal alignment keyword. -/
inductive AlignH where
  | left | center | right
deriving DecidableEq, Repr

/-- Vertical alignment keyword. -/
inductive AlignV where
  | top | center | bottom
deriving DecidableEq, Repr

/-- A key element (`KeyElement` in `src/types.ts`).  Numeric fields the
code guards with `||`/`??` are `Option ℚ` so that the JavaScript
`undefined` case is representable; `text` is the text content as a
character list. -/
structure KeyElement where
  id : ℕ
  kind : ElemKind
  x : Option ℚ
  y : Option ℚ
  width : Option ℚ
  height : Option ℚ
  pad : Option ℚ
  zIndex : ℤ
  text : List Char
  fontSize : Option ℚ
  fit : Option FitMode
  alignX : Option AlignH
  alignY : Option AlignV
deriving DecidableEq, Repr

/-- `KeyModel` from `src/types.ts`. -/
structure KeyModel where
  id : ℕ
  x : ℚ
  y : ℚ
  width : ℚ
  height : ℚ
  keyType : KeyType
  rotation : ℚ
  pad : ℚ
  cornerRadius : ℚ
  background : String
  elements : List KeyElement
deriving DecidableEq, Repr

/-- `KeyboardLayout` from `src/types.ts`. -/
structure KeyboardLayout where
  id : ℕ
  name : String
  keys : List KeyModel
deriving DecidableEq, Repr

/-- `ProjectModel` from `src/types.ts` (`updatedAt` timestamps are
modelled as opaque naturals). -/
structure ProjectModel where
  id : ℕ
  name : String
  paper : PaperSettings
  layout : KeyboardLayout
  updatedAt : ℕ
deriving DecidableEq, Repr

/-- JavaScript `v || d` on a possibly-undefined number: `undefined` and
`0` are falsy. -/
def jsOr (v : Option ℚ) (d : ℚ) : ℚ :=
  match v with
  | none => d
  | some q => if q = 0 then d else q

/-- `el.padding ?? key.padding` (the trailing `?? 0` in the code is dead
because `KeyModel.padding` is mandatory). -/
def effPad (el : KeyElement) (key : KeyModel) : ℚ :=
  el.pad.getD key.pad

/-- `MM_PER_INCH` from `src/utils/units.ts`. -/
def MM_PER_INCH : ℚ := 127 / 5

/-- `POINTS_PER_INCH` from `src/utils/units.ts`. -/
def POINTS_PER_INCH : ℚ := 72

/-- `mmToPixels` from `src/utils/units.ts`. -/
def mmToPixels (mm dpi : ℚ) : ℚ := mm / MM_PER_INCH * dpi

/-- `mmToPoints` from `src/utils/units.ts`. -/
def mmToPoints (mm : ℚ) : ℚ := mm / MM_PER_INCH * POINTS_PER_INCH

/-- Inverse of `mmToPoints` (analysis helper, used to state results back
in millimetre space). -/
def pointsToMm (pt : ℚ) : ℚ := pt * MM_PER_INCH / POINTS_PER_INCH

/-- `paperSizeMm` from `src/utils/units.ts`. -/
def paperSizeMm (size : PaperSize) (o : PageOrient) : ℚ × ℚ :=
  let base : ℚ × ℚ :=
    match size with
    | .letter => (2159/10, 2794/10)
    | .a3 => (297, 420)
    | .tabloid => (2794/10, 4318/10)
    | .a4 => (210, 297)
  match o with
  | .portrait => base
  | .landscape => (base.2, base.1)

theorem pointsToMm_mmToPoints (a : ℚ) : pointsToMm (mmToPoints a) = a := by
  unfold pointsToMm mmToPoints MM_PER_INCH POINTS_PER_INCH
  ring

/-! ## History store (`src/state/store.ts`) -/

/-- The two history stacks (`HistoryState` in `src/state/store.ts`). -/
structure HistoryState where
  past : List ProjectModel
  future : List ProjectModel
deriving DecidableEq, Repr

/-- The slice of the zustand `EditorState` relevant to history. -/
structure EditorState where
  project : ProjectModel
  history : HistoryState
deriving DecidableEq, Repr

/-- JavaScript `l.slice(-n)`: the last `n` elements. -/
def lastN (n : ℕ) (l : List α) : List α := l.drop (l.length - n)

/-- `withHistory` from `src/state/store.ts`: snapshot the current
project, push it on `past` (keeping only the 30 most recent old
entries), apply the updater, clear `future`.  The JSON deep copy is the
identity in a pure model. -/
def withHistoryStep (updater : ProjectModel → ProjectModel) (s : EditorState) : EditorState :=
  { project := updater s.project
    history := { past := lastN 30 s.history.past ++ [s.project]
                 future := [] } }

/-- `undo` from `src/state/store.ts`: `previous = past[past.length-1]`;
no-op if absent, else pop it, push the current project on `future`
(capped via `.slice(0, 30)`). -/
def undoStep (s : EditorState) : EditorState :=
  match s.history.past.getLast? with
  | none => s
  | some previous =>
      { project := previous
        history := { past := s.history.past.dropLast
                     future := (s.project :: s.history.future).take 30 } }

/-- `redo` from `src/state/store.ts`: `next = future[0]`; no-op if
absent, else shift it off `future` and push the current project on
`past` (capped via `.slice(-30)`). -/
def redoStep (s : EditorState) : EditorState :=
  match s.history.future with
  | [] => s
  | next :: rest =>
      { project := next
        history := { past := lastN 30 (s.history.past ++ [s.project])
                     future := rest } }

/-- `defaultProject` from `src/state/store.ts` (ids/timestamps as 0). -/
def defaultProject : ProjectModel :=
  { id := 0
    name := "Keyboarder"
    paper := { size := .a4, orient := .portrait, marginMm := 6, dpi := 300, snap := none }
    layout := { id := 0, name := "Macro Pad", keys := [] }
    updatedAt := 0 }

/-- The store's initial state: `project: defaultProject(), history: { past: [], future: [] }`. -/
def initialEditorState : EditorState :=
  { project := defaultProject, history := { past := [], future := [] } }

theorem lastN_length (n : ℕ) (l : List α) : (lastN n l).length = min n l.length := by
  simp [lastN]
  omega

/-! ## C3: undo immediately followed by redo -/

/-- C3 counterexample state: perform one real mutation, then one undo.
Every step below is an actual store operation, so this state is
reachable in the running editor. -/
def c3MutatedState : EditorState :=
  undoStep (withHistoryStep (fun p => { p with id := 1 }) initialEditorState)

/-- C3 (counterexample): from the reachable state with an empty `past`
and a non-empty `future` (current project = the default project, after
one mutation and one undo), a further `undo` is a no-op but `redo`
still applies, so undo-then-redo does NOT return the project current
before the undo.  This falsifies the claim as stated over all history
states. -/
theorem c3_undo_redo_counterexample :
    c3MutatedState.history.past = [] ∧
    c3MutatedState.history.future ≠ [] ∧
    (redoStep (undoStep c3MutatedState)).project ≠ c3MutatedState.project := by
  refine ⟨?_, ?_, ?_⟩ <;>
    simp [c3MutatedState, withHistoryStep, undoStep, redoStep, lastN,
      initialEditorState, defaultProject]

/-- C3 (amended): provided the `past` stack is non-empty — i.e. the
undo actually applies — `undo` immediately followed by `redo` restores
the project that was current before the undo. -/
theorem c3_undo_redo_round_trip (s : EditorState) (h : s.history.past ≠ []) :
    (redoStep (undoStep s)).project = s.project := by
  cases hlast : s.history.past.getLast? with
  | none => exact absurd (List.getLast?_eq_none_iff.mp hlast) h
  | some prev =>
      rw [undoStep, hlast]
      rw [show (30 : ℕ) = 29 + 1 from rfl, List.take_succ_cons]
      rfl

/-- C3 witness: the amended round trip evaluated on a concrete state
with one snapshot in `past`. -/
theorem c3_undo_redo_round_trip_witness :
    ({ project := { defaultProject with id := 2 }
       history := { past := [defaultProject], future := [] } } : EditorState).history.past ≠ [] ∧
    (redoStep (undoStep { project := { defaultProject with id := 2 }
                          history := { past := [defaultProject], future := [] } })).project =
      ({ project := { defaultProject with id := 2 }
         history := { past := [defaultProject], future := [] } } : EditorState).project :=
  ⟨by simp, c3_undo_redo_round_trip _ (by simp)⟩

/-! ## C9: bounds on the history stacks -/

/-- The history-size invariant claimed for the store: at most 31
snapshots in `past`, at most 30 in `future`. -/
def historyBounded (s : EditorState) : Prop :=
  s.history.past.length ≤ 31 ∧ s.history.future.length ≤ 30

theorem c9_iter_past_length (f : ProjectModel → ProjectModel) (n : ℕ) :
    ((withHistoryStep f)^[n] initialEditorState).history.past.length = min n 31 := by
  induction n with
  | zero => simp [initialEditorState]
  | succ n ih =>
      rw [Function.iterate_succ_apply']
      simp only [withHistoryStep, List.length_append, lastN_length, ih,
        List.length_cons, List.length_nil]
      omega

/-- C9: every store operation preserves the bounds `past ≤ 31`,
`future ≤ 30`; a mutation's new `past` is exactly the 30 most recent
old entries (oldest dropped) followed by the fresh snapshot; and 31
consecutive mutations from the initial state drive `past` to exactly
31 entries, so the 31 bound is attained. -/
theorem c9_history_bounds (s : EditorState) (f : ProjectModel → ProjectModel)
    (h : historyBounded s) :
    historyBounded (withHistoryStep f s) ∧ historyBounded (undoStep s) ∧
    historyBounded (redoStep s) ∧
    (withHistoryStep f s).history.past = lastN 30 s.history.past ++ [s.project] ∧
    ((withHistoryStep f)^[31] initialEditorState).history.past.length = 31 := by
  obtain ⟨h1, h2⟩ := h
  refine ⟨⟨?_, ?_⟩, ?_, ?_, rfl, by rw [c9_iter_past_length]; simp⟩
  · simp only [withHistoryStep, List.length_append, lastN_length, List.length_cons,
      List.length_nil]
    omega
  · simp [withHistoryStep]
  · cases hlast : s.history.past.getLast? with
    | none =>
        simp only [undoStep, hlast]
        exact ⟨h1, h2⟩
    | some prev =>
        simp only [undoStep, hlast, historyBounded, List.length_dropLast,
          List.length_take, List.length_cons]
        omega
  · cases hf : s.history.future with
    | nil =>
        simp only [redoStep, hf]
        exact ⟨h1, h2⟩
    | cons next rest =>
        have h3 : rest.length + 1 ≤ 30 := by rw [hf] at h2; simpa using h2
        simp only [redoStep, hf, historyBounded, lastN_length, List.length_append,
          List.length_cons, List.length_nil]
        omega

/-- C9 witness: the bounds theorem applied at the initial store state. -/
theorem c9_history_bounds_witness :
    historyBounded initialEditorState ∧
    (historyBounded (withHistoryStep id initialEditorState) ∧
     historyBounded (undoStep initialEditorState) ∧
     historyBounded (redoStep initialEditorState) ∧
     (withHistoryStep id initialEditorState).history.past =
       lastN 30 initialEditorState.history.past ++ [initialEditorState.project] ∧
     ((withHistoryStep id)^[31] initialEditorState).history.past.length = 31) :=
  ⟨by simp [historyBounded, initialEditorState],
   c9_history_bounds initialEditorState id (by simp [historyBounded, initialEditorState])⟩

/-! ## Key outlines (iso-enter) across the three renderers -/

/-- The iso-enter outline path emitted by `exportProjectToSvg`
(`src/utils/exporters.ts`): absolute top-left y-down millimetre
coordinates, `x`/`y` being `margin + key.x` / `margin + key.y`. -/
def svgIsoOutline (x y w h : ℚ) : List (ℚ × ℚ) :=
  let topH := h / 2
  let squareW := h / 2
  [(x, y), (x + w, y), (x + w, y + h), (x + w - squareW, y + h),
   (x + w - squareW, y + topH), (x, y + topH)]

/-- The iso-enter `rawOutline` built by `exportProjectToPdf`
(`src/utils/exporters.ts`): PDF points, y-up, `originX`/`originY` being
the key's bottom-left corner on the page. -/
def pdfIsoRawOutline (originX originY w h : ℚ) : List (ℚ × ℚ) :=
  let keyWidthPt := mmToPoints w
  let keyHeightPt := mmToPoints h
  let topH := h / 2
  let squareW := h / 2
  [(originX, originY), (originX + keyWidthPt, originY),
   (originX + keyWidthPt, originY + keyHeightPt),
   (originX + keyWidthPt - mmToPoints squareW, originY + keyHeightPt),
   (originX + keyWidthPt - mmToPoints squareW, originY + mmToPoints topH),
   (originX, originY + mmToPoints topH)]

/-- The iso-enter point list `pts` built by `CanvasStage`
(`src/components/CanvasStage.tsx`): key-local pixels, y-down, from the
key's pixel width/height. -/
def canvasIsoOutline (wPx hPx : ℚ) : List (ℚ × ℚ) :=
  let topH := hPx / 2
  let squareW := hPx / 2
  [(0, 0), (wPx, 0), (wPx, hPx), (wPx - squareW, hPx),
   (wPx - squareW, topH), (0, topH)]

/-- JavaScript `Math.max(...)` over a non-empty list (the `[]` case is
never reached by the callers below). -/
def jsMax : List ℚ → ℚ
  | [] => 0
  | a :: r => r.foldl max a

/-- JavaScript `Math.min(...)` over a non-empty list. -/
def jsMin : List ℚ → ℚ
  | [] => 0
  | a :: r => r.foldl min a

/-- Width of the axis-aligned bounding box of a vertex list. -/
def bboxWidth (pts : List (ℚ × ℚ)) : ℚ :=
  jsMax (pts.map Prod.fst) - jsMin (pts.map Prod.fst)

/-- Height of the axis-aligned bounding box of a vertex list. -/
def bboxHeight (pts : List (ℚ × ℚ)) : ℚ :=
  jsMax (pts.map Prod.snd) - jsMin (pts.map Prod.snd)

/-- C4: for an iso-enter key of width 20.25 mm and height 27 mm, every
renderer's generated outline has exactly 6 vertices and an axis-aligned
bounding box of exactly 20.25 mm by 27 mm (the PDF outline measured in
points converts back to exactly those millimetre extents; the canvas
outline at 300 DPI spans exactly the key's pixel width/height). -/
theorem c4_iso_enter_six_vertices_bbox :
    (svgIsoOutline 0 0 (81/4) 27).length = 6 ∧
    bboxWidth (svgIsoOutline 0 0 (81/4) 27) = 81/4 ∧
    bboxHeight (svgIsoOutline 0 0 (81/4) 27) = 27 ∧
    (pdfIsoRawOutline 0 0 (81/4) 27).length = 6 ∧
    pointsToMm (bboxWidth (pdfIsoRawOutline 0 0 (81/4) 27)) = 81/4 ∧
    pointsToMm (bboxHeight (pdfIsoRawOutline 0 0 (81/4) 27)) = 27 ∧
    (canvasIsoOutline (mmToPixels (81/4) 300) (mmToPixels 27 300)).length = 6 ∧
    bboxWidth (canvasIsoOutline (mmToPixels (81/4) 300) (mmToPixels 27 300)) =
      mmToPixels (81/4) 300 ∧
    bboxHeight (canvasIsoOutline (mmToPixels (81/4) 300) (mmToPixels 27 300)) =
      mmToPixels 27 300 := by
  refine ⟨rfl, ?_, ?_, rfl, ?_, ?_, rfl, ?_, ?_⟩ <;>
    norm_num [svgIsoOutline, pdfIsoRawOutline, canvasIsoOutline, bboxWidth, bboxHeight,
      jsMax, jsMin, mmToPoints, pointsToMm, mmToPixels, MM_PER_INCH, POINTS_PER_INCH,
      max_def, min_def]

/-! ## C5: shape of the iso-enter outline -/

/-- Modelled from the spec (C5's wording): an L hexagon whose top
portion is full width over the top half and whose bottom portion has
its right edge inset by half the key height, traced clockwise from the
top-left corner (key-local, y-down). -/
def isoClaimedOutline (w h : ℚ) : List (ℚ × ℚ) :=
  [(0, 0), (w, 0), (w, h/2), (w - h/2, h/2), (w - h/2, h), (0, h)]

/-- The iso-enter hexagon the SVG/canvas renderers actually generate
(key-local, y-down): top portion full width over the top half, bottom
portion the rightmost `h/2`-wide column (left edge inset), i.e. the
removed half-height square notch is at the bottom-LEFT corner. -/
def isoAmendedOutline (w h : ℚ) : List (ℚ × ℚ) :=
  [(0, 0), (w, 0), (w, h), (w - h/2, h), (w - h/2, h/2), (0, h/2)]

/-- The PDF exporter's iso-enter outline re-expressed in key-local
top-left y-down millimetre space (points converted back to mm, the
y-up axis flipped). -/
def pdfIsoOutlineMm (w h : ℚ) : List (ℚ × ℚ) :=
  (pdfIsoRawOutline 0 0 w h).map (fun p => (pointsToMm p.1, h - pointsToMm p.2))

/-- C5 (counterexample): at width 20.25 mm, height 27 mm, the claimed
hexagon (notch at top-right / bottom right edge inset) has the bbox
bottom-left corner `(0, 27)` as a vertex while the SVG outline does
not; conversely the SVG outline has `(0, 13.5)` as a vertex while the
claimed one does not — so the generated outline is not the claimed
shape.  Moreover the PDF outline (read back in y-down mm space) has
`(0, 27)` as a vertex while the SVG outline does not: the two
exporters do not even generate the same hexagon. -/
theorem c5_iso_enter_shape_counterexample :
    ((0 : ℚ), (27 : ℚ)) ∈ isoClaimedOutline (81/4) 27 ∧
    ((0 : ℚ), (27 : ℚ)) ∉ svgIsoOutline 0 0 (81/4) 27 ∧
    ((0 : ℚ), (27/2 : ℚ)) ∈ svgIsoOutline 0 0 (81/4) 27 ∧
    ((0 : ℚ), (27/2 : ℚ)) ∉ isoClaimedOutline (81/4) 27 ∧
    ((0 : ℚ), (27 : ℚ)) ∈ pdfIsoOutlineMm (81/4) 27 := by
  refine ⟨?_, ?_, ?_, ?_, ?_⟩ <;>
    norm_num [isoClaimedOutline, svgIsoOutline, pdfIsoOutlineMm, pdfIsoRawOutline,
      pointsToMm, mmToPoints, MM_PER_INCH, POINTS_PER_INCH, Prod.ext_iff]

/-- C5 (amended): for every width and height, the SVG and canvas
renderers generate the L hexagon with the top portion full width over
the top half and the bottom portion right-aligned in the rightmost
half-height-wide column (notch at the bottom-left); the PDF exporter
generates the same vertex pattern in its y-up frame, which in y-down
millimetre space is the vertical mirror of that hexagon (notch at the
top-left). -/
theorem c5_iso_enter_shape (w h dpi : ℚ) :
    svgIsoOutline 0 0 w h = isoAmendedOutline w h ∧
    canvasIsoOutline (mmToPixels w dpi) (mmToPixels h dpi) =
      (isoAmendedOutline w h).map (fun p => (mmToPixels p.1 dpi, mmToPixels p.2 dpi)) ∧
    pdfIsoOutlineMm w h = (isoAmendedOutline w h).map (fun p => (p.1, h - p.2)) := by
  refine ⟨?_, ?_, ?_⟩ <;>
    simp only [svgIsoOutline, canvasIsoOutline, pdfIsoOutlineMm, pdfIsoRawOutline,
      isoAmendedOutline, List.map_cons, List.map_nil, List.cons.injEq, Prod.mk.injEq,
      and_true, mmToPixels, mmToPoints, pointsToMm, MM_PER_INCH, POINTS_PER_INCH] <;>
    repeat' apply And.intro
  all_goals first | trivial | ring1

/-! ## C6: element placement rectangles -/

/-- The element rectangle (`elX`, `elY`, `elWidth`, `elHeight`)
computed by `exportProjectToPdf` (`src/utils/exporters.ts`): absolute
page points, y-up (so `elY` is the rectangle's bottom edge). -/
def pdfElementRect (pageH margin : ℚ) (key : KeyModel) (el : KeyElement) : ℚ × ℚ × ℚ × ℚ :=
  let pad := effPad el key
  let originX := mmToPoints (margin + key.x)
  let originY := mmToPoints (pageH - margin - key.y - key.height)
  (originX + mmToPoints (jsOr el.x 0 + pad),
   originY + mmToPoints (key.height - jsOr el.y 0 - jsOr el.height key.height + pad),
   mmToPoints (jsOr el.width key.width - pad * 2),
   mmToPoints (jsOr el.height key.height - pad * 2))

/-- The element rectangle emitted by `exportProjectToSvg` for shape and
image elements (`src/utils/exporters.ts`): absolute millimetres,
y-down, with `x`/`y` = `margin + key.x` / `margin + key.y`. -/
def svgElementRect (margin : ℚ) (key : KeyModel) (el : KeyElement) : ℚ × ℚ × ℚ × ℚ :=
  let pad := effPad el key
  let x := margin + key.x
  let y := margin + key.y
  (x + jsOr el.x 0 + pad, y + jsOr el.y 0 + pad,
   jsOr el.width key.width - pad * 2, jsOr el.height key.height - pad * 2)

/-- The `x`/`y`/`width`/`height` computed by `ElementRenderer`
(`src/components/CanvasStage.tsx`): key-local pixels.  Note the source
uses `keyModel.padding` here, never the element's own padding. -/
def canvasElementRect (dpi : ℚ) (key : KeyModel) (el : KeyElement) : ℚ × ℚ × ℚ × ℚ :=
  (mmToPixels (jsOr el.x 0 + key.pad) dpi,
   mmToPixels (jsOr el.y 0 + key.pad) dpi,
   mmToPixels (jsOr el.width key.width) dpi - mmToPixels (key.pad * 2) dpi,
   mmToPixels (jsOr el.height key.height) dpi - mmToPixels (key.pad * 2) dpi)

/-- Modelled from the spec (C6's wording): the element's drawn
rectangle in key-local mm space, `(x_local + p, y_local + p,
width - 2p, height - 2p)` with `p` the element's own padding override
when present else the key's padding, and offset/size defaulting to the
full key bounds when absent. -/
def claimedElementRect (key : KeyModel) (el : KeyElement) : ℚ × ℚ × ℚ × ℚ :=
  let p := el.pad.getD key.pad
  (el.x.getD 0 + p, el.y.getD 0 + p,
   el.width.getD key.width - 2 * p, el.height.getD key.height - 2 * p)

/-- The key-local mm rectangle the PDF and SVG renderers actually use:
like the claimed one but with JavaScript `||` defaulting (a size of 0
also falls back to the full key bounds). -/
def elementRectMm (key : KeyModel) (el : KeyElement) : ℚ × ℚ × ℚ × ℚ :=
  let p := effPad el key
  (jsOr el.x 0 + p, jsOr el.y 0 + p,
   jsOr el.width key.width - 2 * p, jsOr el.height key.height - 2 * p)

/-- The key-local mm rectangle the canvas renderer actually uses: the
key's own padding throughout, ignoring any per-element override. -/
def canvasElementRectMm (key : KeyModel) (el : KeyElement) : ℚ × ℚ × ℚ × ℚ :=
  (jsOr el.x 0 + key.pad, jsOr el.y 0 + key.pad,
   jsOr el.width key.width - 2 * key.pad, jsOr el.height key.height - 2 * key.pad)

/-- Concrete 18×18 mm rect key with padding 2 at the printable-area
origin, used by several counterexamples. -/
def stdKey : KeyModel :=
  { id := 0, x := 0, y := 0, width := 18, height := 18, keyType := .rect, rotation := 0,
    pad := 2, cornerRadius := 2, background := "transparent", elements := [] }

/-- A full-key shape element with a per-element padding override of 5 mm. -/
def c6ElOverride : KeyElement :=
  { id := 0, kind := .shape, x := some 0, y := some 0, width := some 18, height := some 18,
    pad := some 5, zIndex := 0, text := [], fontSize := none, fit := none,
    alignX := none, alignY := none }

/-- An element whose declared width is 0 mm (present but falsy). -/
def c6ElZeroWidth : KeyElement :=
  { c6ElOverride with pad := none, width := some 0 }

/-- C6 (counterexample): (a) the canvas renderer does not honour the
element's padding override — with key padding 2 and element padding 5
its rectangle disagrees with the claimed `(x+p, y+p, w-2p, h-2p)`
rectangle; (b) a present-but-zero width is replaced by the full key
width by the `||` defaulting of the SVG (and PDF) renderers, not kept
as 0 as the claimed rectangle would have it. -/
theorem c6_element_rect_counterexample :
    canvasElementRect 300 stdKey c6ElOverride ≠
      (mmToPixels (claimedElementRect stdKey c6ElOverride).1 300,
       mmToPixels (claimedElementRect stdKey c6ElOverride).2.1 300,
       mmToPixels (claimedElementRect stdKey c6ElOverride).2.2.1 300,
       mmToPixels (claimedElementRect stdKey c6ElOverride).2.2.2 300) ∧
    svgElementRect 6 stdKey c6ElZeroWidth ≠
      (6 + stdKey.x + (claimedElementRect stdKey c6ElZeroWidth).1,
       6 + stdKey.y + (claimedElementRect stdKey c6ElZeroWidth).2.1,
       (claimedElementRect stdKey c6ElZeroWidth).2.2.1,
       (claimedElementRect stdKey c6ElZeroWidth).2.2.2) := by
  constructor
  · intro hcon
    have h1 := congrArg (fun t => t.1) hcon
    norm_num [canvasElementRect, claimedElementRect, stdKey,
      c6ElOverride, jsOr, effPad, mmToPixels, MM_PER_INCH] at h1
  · intro hcon
    have h1 := congrArg (fun t => t.2.2.1) hcon
    norm_num [svgElementRect, claimedElementRect, stdKey,
      c6ElZeroWidth, c6ElOverride, jsOr, effPad] at h1

/-- C6 (amended): for every key, element, margin, page height and DPI:
the SVG and PDF exporters draw the element at the key-local mm
rectangle `(x+p, y+p, w-2p, h-2p)` with `p` the element's padding
override when present else the key's padding and with offsets/sizes
defaulting via JavaScript `||` (absent OR zero falls back to 0 resp.
the full key bounds) — the PDF rectangle being that rectangle mirrored
to the page's bottom-left y-up point frame; the canvas renderer uses
the same formula but always with the key's own padding. -/
theorem c6_element_rect (pageH margin dpi : ℚ) (key : KeyModel) (el : KeyElement) :
    svgElementRect margin key el =
      (margin + key.x + (elementRectMm key el).1,
       margin + key.y + (elementRectMm key el).2.1,
       (elementRectMm key el).2.2.1, (elementRectMm key el).2.2.2) ∧
    pdfElementRect pageH margin key el =
      (mmToPoints (margin + key.x + (elementRectMm key el).1),
       mmToPoints (pageH - margin - key.y -
         ((elementRectMm key el).2.1 + (elementRectMm key el).2.2.2)),
       mmToPoints (elementRectMm key el).2.2.1,
       mmToPoints (elementRectMm key el).2.2.2) ∧
    canvasElementRect dpi key el =
      (mmToPixels (canvasElementRectMm key el).1 dpi,
       mmToPixels (canvasElementRectMm key el).2.1 dpi,
       mmToPixels (canvasElementRectMm key el).2.2.1 dpi,
       mmToPixels (canvasElementRectMm key el).2.2.2 dpi) := by
  refine ⟨?_, ?_, ?_⟩ <;>
    simp only [svgElementRect, pdfElementRect, canvasElementRect, elementRectMm,
      canvasElementRectMm, mmToPoints, mmToPixels, MM_PER_INCH, POINTS_PER_INCH,
      Prod.mk.injEq] <;>
    repeat' apply And.intro
  all_goals first | trivial | ring1

/-! ## C7: image fit at zero natural height -/

/-- The image fit computation shared verbatim by `exportProjectToPdf`
(`src/utils/exporters.ts`) and `ElementRenderer`
(`src/components/CanvasStage.tsx`): from the available rectangle's
width/height and the image's natural width/height, the drawn
width/height.  The source contains NO guard for a zero natural height:
`naturalRatio = image.width / image.height` is formed unconditionally.
(Rational division by zero yields 0 here; IEEE division in the browser
yields Infinity/NaN — under either semantics the result at zero
natural height is a degenerate rectangle, not the full available
one.) -/
def imageFitDraw (availW availH naturalW naturalH : ℚ) (fit : Option FitMode) : ℚ × ℚ :=
  let naturalR := naturalW / naturalH
  let areaR := availW / availH
  match fit with
  | some .contain =>
      if areaR > naturalR then (availH * naturalR, availH)
      else (availW, availW / naturalR)
  | some .cover =>
      if areaR < naturalR then (availH * naturalR, availH)
      else (availW, availW / naturalR)
  | none => (availW, availH)

/-- C7: the claimed zero-natural-height guard does not exist.  For an
image of natural size 10×0 with fit `contain` in a 10×10 available
rectangle, the code still runs the fit computation (dividing by the
zero height) and the reported drawn rectangle is the degenerate 0×10,
NOT the full 10×10 available rectangle the spec promises.  (In the
browser's IEEE arithmetic the same input takes the other branch of the
comparison against `Infinity` and degenerates to 10×0 — under neither
semantics is the full rectangle reported.) -/
theorem c7_zero_height_fit_eval :
    imageFitDraw 10 10 10 0 (some FitMode.contain) = (0, 10) ∧
    imageFitDraw 10 10 10 0 (some FitMode.contain) ≠ ((10 : ℚ), (10 : ℚ)) := by
  norm_num [imageFitDraw]

/-! ## C8: text baseline placement, PDF vs SVG -/

/-- The text draw position used by `exportProjectToPdf`
(`src/utils/exporters.ts`): `(elX + 2, elY + elHeight/2 - fontSize/2)`
in page points, y-up (the y is the baseline `drawText` uses). -/
def pdfTextPos (pageH margin : ℚ) (key : KeyModel) (el : KeyElement) : ℚ × ℚ :=
  let r := pdfElementRect pageH margin key el
  (r.1 + 2, r.2.1 + r.2.2.2 / 2 - jsOr el.fontSize 10 / 2)

/-- The text anchor emitted by `exportProjectToSvg`
(`src/utils/exporters.ts`): `(x + el.x + pad + 2,
y + el.y + pad + fontSize + 2)` in absolute millimetres, y-down (the y
is the `<text>` baseline). -/
def svgTextPos (margin : ℚ) (key : KeyModel) (el : KeyElement) : ℚ × ℚ :=
  let pad := effPad el key
  (margin + key.x + jsOr el.x 0 + pad + 2,
   margin + key.y + jsOr el.y 0 + pad + jsOr el.fontSize 10 + 2)

/-- PDF text baseline relative to the key's top-left corner, converted
to millimetres, y-down (analysis helper). -/
def pdfTextRelMm (pageH margin : ℚ) (key : KeyModel) (el : KeyElement) : ℚ × ℚ :=
  let p := pdfTextPos pageH margin key el
  (pointsToMm (p.1 - mmToPoints (margin + key.x)),
   key.height - pointsToMm (p.2 - mmToPoints (pageH - margin - key.y - key.height)))

/-- SVG text baseline relative to the key's top-left corner, in
millimetres (analysis helper). -/
def svgTextRelMm (margin : ℚ) (key : KeyModel) (el : KeyElement) : ℚ × ℚ :=
  let p := svgTextPos margin key el
  (p.1 - (margin + key.x), p.2 - (margin + key.y))

/-- The text element of C8's scenario: fills the whole 18×18 key,
default font size. -/
def c8TextEl : KeyElement :=
  { id := 0, kind := .text, x := some 0, y := some 0, width := some 18, height := some 18,
    pad := none, zIndex := 2, text := ['A'], fontSize := none, fit := none,
    alignX := none, alignY := none }

/-- C8 (counterexample): for a single 18×18 mm rect key at (0,0),
rotation 0, one text element filling the key, A4 portrait page, 6 mm
margin, the PDF and SVG exports do NOT place the text baseline at the
same relative offset within the key: they differ by 233/180 mm
horizontally and 233/72 mm (≈ 3.24 mm) vertically — far beyond any
unit-conversion rounding (the pipeline performs no rounding at all). -/
theorem c8_text_baseline_counterexample :
    pdfTextRelMm (paperSizeMm PaperSize.a4 PageOrient.portrait).2 6 stdKey c8TextEl ≠
      svgTextRelMm 6 stdKey c8TextEl := by
  intro hcon
  have h1 := congrArg (fun t => t.2) hcon
  norm_num [pdfTextRelMm, svgTextRelMm, pdfTextPos, svgTextPos, pdfElementRect,
    paperSizeMm, stdKey, c8TextEl, jsOr, effPad, mmToPoints, pointsToMm,
    MM_PER_INCH, POINTS_PER_INCH] at h1

/-- C8 (amended): in that scenario the two exporters place the
baseline at different relative offsets within the key: the PDF export
at `(2 mm + 2 pt, 9 mm + 5 pt)` = `(2 + 127/180, 9 + 127/72)` mm from
the key's top-left (2 points right of the padded left edge, vertically
centred minus half the font size in points), the SVG export at
`(4, 14)` mm (2 mm right of the padded left edge, `fontSize + 2` mm
below the padded top edge). -/
theorem c8_text_baseline_values :
    pdfTextRelMm (paperSizeMm PaperSize.a4 PageOrient.portrait).2 6 stdKey c8TextEl =
      (2 + 127/180, 9 + 127/72) ∧
    svgTextRelMm 6 stdKey c8TextEl = (4, 14) := by
  constructor <;>
    norm_num [pdfTextRelMm, svgTextRelMm, pdfTextPos, svgTextPos, pdfElementRect,
      paperSizeMm, stdKey, c8TextEl, jsOr, effPad, mmToPoints, pointsToMm,
      MM_PER_INCH, POINTS_PER_INCH, Prod.ext_iff]

/-! ## C10: HTML escaping in the SVG exporter -/

/-- One pass of JavaScript `str.replace(/c/g, r)` for a single-character
pattern: every occurrence of `c` becomes `r`. -/
def replAll (c : Char) (r : List Char) : List Char → List Char
  | [] => []
  | a :: s => if a = c then r ++ replAll c r s else a :: replAll c r s

/-- `escapeHtml` from `src/utils/exporters.ts`: five sequential global
replacements, `&` first, then `<`, `>`, `"`, `'`. -/
def escapeHtml (s : List Char) : List Char :=
  replAll '\'' "&#039;".toList
    (replAll '"' "&quot;".toList
      (replAll '>' "&gt;".toList
        (replAll '<' "&lt;".toList
          (replAll '&' "&amp;".toList s))))

/-- The per-character escaping map the five passes amount to. -/
def escChar (a : Char) : List Char :=
  if a = '&' then "&amp;".toList
  else if a = '<' then "&lt;".toList
  else if a = '>' then "&gt;".toList
  else if a = '"' then "&quot;".toList
  else if a = '\'' then "&#039;".toList
  else [a]

/-- The character data `exportProjectToSvg` emits between `<text>` and
`</text>` for a text element (`src/utils/exporters.ts`). -/
def svgTextContent (el : KeyElement) : List Char := escapeHtml el.text

theorem replAll_cons (c : Char) (r : List Char) (a : Char) (s : List Char) :
    replAll c r (a :: s) = (if a = c then r else [a]) ++ replAll c r s := by
  simp only [replAll]
  split <;> simp

theorem replAll_append (c : Char) (r u v : List Char) :
    replAll c r (u ++ v) = replAll c r u ++ replAll c r v := by
  induction u with
  | nil => simp [replAll]
  | cons a u ih =>
      simp only [List.cons_append, replAll]
      split <;> simp [ih]

theorem escapeHtml_cons (a : Char) (s : List Char) :
    escapeHtml (a :: s) = escChar a ++ escapeHtml s := by
  simp only [escapeHtml, replAll_cons, replAll_append]
  congr 1
  by_cases h1 : a = '&'
  · subst h1; rfl
  by_cases h2 : a = '<'
  · subst h2; simp [h1]; rfl
  by_cases h3 : a = '>'
  · subst h3; simp [h1, h2]; rfl
  by_cases h4 : a = '"'
  · subst h4; simp [h1, h2, h3]; rfl
  by_cases h5 : a = '\''
  · subst h5; simp [h1, h2, h3, h4]; rfl
  simp [escChar, replAll, h1, h2, h3, h4, h5]

theorem escapeHtml_flatMap (s : List Char) : escapeHtml s = s.flatMap escChar := by
  induction s with
  | nil => rfl
  | cons a s ih => rw [escapeHtml_cons, ih, List.flatMap_cons]

theorem escapeHtml_no_markup (s : List Char) :
    ∀ c ∈ escapeHtml s, c ≠ '<' ∧ c ≠ '>' ∧ c ≠ '"' ∧ c ≠ '\'' := by
  intro c hc
  rw [escapeHtml_flatMap] at hc
  rcases List.mem_flatMap.mp hc with ⟨a, _, hm⟩
  unfold escChar at hm
  split_ifs at hm with h1 h2 h3 h4 h5
  · rw [show "&amp;".toList = ['&', 'a', 'm', 'p', ';'] from rfl] at hm
    simp only [List.mem_cons, List.not_mem_nil, or_false] at hm
    rcases hm with rfl | rfl | rfl | rfl | rfl <;> decide
  · rw [show "&lt;".toList = ['&', 'l', 't', ';'] from rfl] at hm
    simp only [List.mem_cons, List.not_mem_nil, or_false] at hm
    rcases hm with rfl | rfl | rfl | rfl <;> decide
  · rw [show "&gt;".toList = ['&', 'g', 't', ';'] from rfl] at hm
    simp only [List.mem_cons, List.not_mem_nil, or_false] at hm
    rcases hm with rfl | rfl | rfl | rfl <;> decide
  · rw [show "&quot;".toList = ['&', 'q', 'u', 'o', 't', ';'] from rfl] at hm
    simp only [List.mem_cons, List.not_mem_nil, or_false] at hm
    rcases hm with rfl | rfl | rfl | rfl | rfl | rfl <;> decide
  · rw [show "&#039;".toList = ['&', '#', '0', '3', '9', ';'] from rfl] at hm
    simp only [List.mem_cons, List.not_mem_nil, or_false] at hm
    rcases hm with rfl | rfl | rfl | rfl | rfl | rfl <;> decide
  · simp only [List.mem_cons, List.not_mem_nil, or_false] at hm
    subst hm
    exact ⟨h2, h3, h4, h5⟩

/-- C10: the SVG exporter embeds a text element's content as
`escapeHtml(text)`, which replaces each of `&ampersand, <, >, ", '`
by its HTML entity (it equals the per-character entity substitution),
so none of `<`, `>`, `"`, `'` from the user text survives unescaped in
the generated `<text>` content. -/
theorem c10_svg_text_escaping (el : KeyElement) :
    svgTextContent el = el.text.flatMap escChar ∧
    escChar '&' = "&amp;".toList ∧
    escChar '<' = "&lt;".toList ∧
    escChar '>' = "&gt;".toList ∧
    escChar '"' = "&quot;".toList ∧
    escChar '\'' = "&#039;".toList ∧
    ∀ c ∈ svgTextContent el, c ≠ '<' ∧ c ≠ '>' ∧ c ≠ '"' ∧ c ≠ '\'' :=
  ⟨escapeHtml_flatMap el.text, rfl, rfl, rfl, rfl, rfl, escapeHtml_no_markup el.text⟩

/-- A text element whose content mixes all five markup characters. -/
def c10El : KeyElement :=
  { id := 0, kind := .text, x := none, y := none, width := none, height := none,
    pad := none, zIndex := 2, text := "a<b&c>'d\"".toList, fontSize := none, fit := none,
    alignX := none, alignY := none }

/-- C10 witness: the escaping theorem applied at a concrete text
element, together with the concrete escaped output. -/
theorem c10_svg_text_escaping_witness :
    (svgTextContent c10El = c10El.text.flatMap escChar ∧
     escChar '&' = "&amp;".toList ∧
     escChar '<' = "&lt;".toList ∧
     escChar '>' = "&gt;".toList ∧
     escChar '"' = "&quot;".toList ∧
     escChar '\'' = "&#039;".toList ∧
     ∀ c ∈ svgTextContent c10El, c ≠ '<' ∧ c ≠ '>' ∧ c ≠ '"' ∧ c ≠ '\'') ∧
    svgTextContent c10El = "a&lt;b&amp;c&gt;&#039;d&quot;".toList :=
  ⟨c10_svg_text_escaping c10El, rfl⟩

/-! ## C1: cut-sheet reflow -/

/-- The sort comparator `(a, b) => a.y - b.y || a.x - b.x` from
`buildCutProject` (`src/App.tsx`) / `derivedKeys`
(`src/components/CanvasStage.tsx`) as a boolean "comes no later than"
relation: ascending by `y`, ties by `x`. -/
def keyLe (a b : KeyModel) : Bool :=
  decide (a.y < b.y ∨ (a.y = b.y ∧ a.x ≤ b.x))

/-- Placement of the `idx`-th sorted key on the cut sheet:
`x = margin + col*(maxW+gap)`, `y = margin + row*(maxH+gap)`,
`rotation = 0`, with `row = idx / perRow`, `col = idx % perRow`. -/
def cutPlace (margin maxW maxH gap : ℚ) (perRow idx : ℕ) (k : KeyModel) : KeyModel :=
  { k with x := margin + (idx % perRow : ℕ) * (maxW + gap)
           y := margin + (idx / perRow : ℕ) * (maxH + gap)
           rotation := 0 }

/-- `sorted.map((key, idx) => ...)` with its running index made
explicit. -/
def cutArrange (margin maxW maxH gap : ℚ) (perRow : ℕ) : ℕ → List KeyModel → List KeyModel
  | _, [] => []
  | idx, k :: ks =>
      cutPlace margin maxW maxH gap perRow idx k ::
        cutArrange margin maxW maxH gap perRow (idx + 1) ks

/-- The key-list core of `buildCutProject` (`src/App.tsx`) and of
`derivedKeys` in cut view (`src/components/CanvasStage.tsx`), which
duplicate the same algorithm with different `gap` constants: sort by
`(y, x)`, take the max width/height, compute
`perRow = max(1, floor((usableWidth+gap)/(maxW+gap)))`, place
row-major.  An empty list is returned unchanged (the `if
(!sorted.length) return clone` early-out). -/
def cutReflowKeys (gap pageW margin : ℚ) (keys : List KeyModel) : List KeyModel :=
  let sorted := keys.mergeSort keyLe
  if sorted = [] then keys
  else
    let usableWidth := pageW - margin * 2
    let maxW := jsMax (sorted.map KeyModel.width)
    let maxH := jsMax (sorted.map KeyModel.height)
    let perRow := (max 1 ⌊(usableWidth + gap) / (maxW + gap)⌋).toNat
    cutArrange margin maxW maxH gap perRow 0 sorted

/-- `buildCutProject` from `src/App.tsx` (its caller passes the default
`gap = 0.3`). -/
def buildCutProject (p : ProjectModel) (gap : ℚ) : ProjectModel :=
  { p with layout :=
      { p.layout with
          name := p.layout.name ++ " (cut sheet)"
          keys := cutReflowKeys gap (paperSizeMm p.paper.size p.paper.orient).1
            p.paper.marginMm p.layout.keys } }

/-- `derivedKeys` of `CanvasStage` in cut view (`gap = 0.8`). -/
def derivedKeysCut (p : ProjectModel) : List KeyModel :=
  cutReflowKeys (4/5) (paperSizeMm p.paper.size p.paper.orient).1
    p.paper.marginMm p.layout.keys

/-- A key's identity and content minus the fields the reflow may
change (`x`, `y`, `rotation`). -/
structure KeyContent where
  id : ℕ
  width : ℚ
  height : ℚ
  keyType : KeyType
  pad : ℚ
  cornerRadius : ℚ
  background : String
  elements : List KeyElement
deriving DecidableEq, Repr

/-- Forget a key's position and rotation. -/
def stripPos (k : KeyModel) : KeyContent :=
  { id := k.id, width := k.width, height := k.height, keyType := k.keyType,
    pad := k.pad, cornerRadius := k.cornerRadius, background := k.background,
    elements := k.elements }

/-- Axis-aligned bounding boxes of two keys do not overlap (they may at
most touch). -/
def keysDisjoint (a b : KeyModel) : Prop :=
  a.x + a.width ≤ b.x ∨ b.x + b.width ≤ a.x ∨
  a.y + a.height ≤ b.y ∨ b.y + b.height ≤ a.y

instance : DecidableRel keysDisjoint := fun a b => by
  unfold keysDisjoint; infer_instance

theorem le_foldl_max (r : List ℚ) (b : ℚ) : b ≤ r.foldl max b := by
  induction r generalizing b with
  | nil => exact le_refl b
  | cons x r ih => exact le_trans (le_max_left b x) (ih (max b x))

theorem mem_le_foldl_max (r : List ℚ) (b a : ℚ) (ha : a ∈ r) : a ≤ r.foldl max b := by
  induction r generalizing b with
  | nil => simp at ha
  | cons x r ih =>
      rcases List.mem_cons.mp ha with rfl | ha2
      · exact le_trans (le_max_right b a) (le_foldl_max r (max b a))
      · exact ih (max b x) ha2

theorem le_jsMax (l : List ℚ) (a : ℚ) (ha : a ∈ l) : a ≤ jsMax l := by
  cases l with
  | nil => simp at ha
  | cons b r =>
      rcases List.mem_cons.mp ha with rfl | ha2
      · exact le_foldl_max r a
      · exact mem_le_foldl_max r b a ha2

theorem cutArrange_length (m W H g : ℚ) (P i : ℕ) (l : List KeyModel) :
    (cutArrange m W H g P i l).length = l.length := by
  induction l generalizing i with
  | nil => rfl
  | cons k ks ih => simp [cutArrange, ih]

theorem cutArrange_rotation (m W H g : ℚ) (P i : ℕ) (l : List KeyModel) :
    ∀ k ∈ cutArrange m W H g P i l, k.rotation = 0 := by
  induction l generalizing i with
  | nil => simp [cutArrange]
  | cons k ks ih =>
      intro k2 hk2
      rcases List.mem_cons.mp hk2 with rfl | h2
      · rfl
      · exact ih (i + 1) k2 h2

theorem cutArrange_map_strip (m W H g : ℚ) (P i : ℕ) (l : List KeyModel) :
    (cutArrange m W H g P i l).map stripPos = l.map stripPos := by
  induction l generalizing i with
  | nil => rfl
  | cons k ks ih => simp [cutArrange, ih, cutPlace, stripPos]

theorem cutArrange_getElem? (m W H g : ℚ) (P i j : ℕ) (l : List KeyModel) :
    (cutArrange m W H g P i l)[j]? = (l[j]?).map (cutPlace m W H g P (i + j)) := by
  induction l generalizing i j with
  | nil => simp [cutArrange]
  | cons k ks ih =>
      cases j with
      | zero => simp [cutArrange]
      | succ j =>
          simp only [cutArrange, List.getElem?_cons_succ, ih]
          have he : i + 1 + j = i + (j + 1) := by omega
          rw [he]

theorem cutPlace_disjoint (m W H g : ℚ) (P : ℕ) (hg : 0 < g)
    (k1 k2 : KeyModel) (j1 j2 : ℕ)
    (hw1 : k1.width ≤ W) (hh1 : k1.height ≤ H)
    (hw2 : k2.width ≤ W) (hh2 : k2.height ≤ H)
    (hW : 0 ≤ W) (hH : 0 ≤ H)
    (hcells : (j1 / P, j1 % P) ≠ (j2 / P, j2 % P)) :
    keysDisjoint (cutPlace m W H g P j1 k1) (cutPlace m W H g P j2 k2) := by
  simp only [keysDisjoint, cutPlace]
  rcases Nat.lt_trichotomy (j1 / P) (j2 / P) with hr | hr | hr
  · obtain ⟨d, hd⟩ := Nat.exists_eq_add_of_lt hr
    right; right; left
    rw [hd]
    push_cast
    have hd0 : (0 : ℚ) ≤ (d : ℚ) := by positivity
    nlinarith [mul_nonneg hd0 (by linarith : (0:ℚ) ≤ H + g)]
  · have hc : j1 % P ≠ j2 % P := fun he => hcells (by rw [hr, he])
    rcases Nat.lt_trichotomy (j1 % P) (j2 % P) with hcc | hcc | hcc
    · obtain ⟨d, hd⟩ := Nat.exists_eq_add_of_lt hcc
      left
      rw [hd]
      push_cast
      have hd0 : (0 : ℚ) ≤ (d : ℚ) := by positivity
      nlinarith [mul_nonneg hd0 (by linarith : (0:ℚ) ≤ W + g)]
    · exact absurd hcc hc
    · obtain ⟨d, hd⟩ := Nat.exists_eq_add_of_lt hcc
      right; left
      rw [hd]
      push_cast
      have hd0 : (0 : ℚ) ≤ (d : ℚ) := by positivity
      nlinarith [mul_nonneg hd0 (by linarith : (0:ℚ) ≤ W + g)]
  · obtain ⟨d, hd⟩ := Nat.exists_eq_add_of_lt hr
    right; right; right
    rw [hd]
    push_cast
    have hd0 : (0 : ℚ) ≤ (d : ℚ) := by positivity
    nlinarith [mul_nonneg hd0 (by linarith : (0:ℚ) ≤ H + g)]

theorem c1_cut_reflow (gap pageW margin : ℚ) (keys : List KeyModel)
    (hgap : 0 < gap) (hne : keys ≠ [])
    (hsz : ∀ k ∈ keys, 0 < k.width ∧ 0 < k.height) :
    (cutReflowKeys gap pageW margin keys).length = keys.length ∧
    (∀ k ∈ cutReflowKeys gap pageW margin keys, k.rotation = 0) ∧
    ((cutReflowKeys gap pageW margin keys).map stripPos).Perm (keys.map stripPos) ∧
    List.Pairwise keysDisjoint (cutReflowKeys gap pageW margin keys) := by
  have hperm : (keys.mergeSort keyLe).Perm keys := List.mergeSort_perm keys keyLe
  have hsne : keys.mergeSort keyLe ≠ [] := by
    intro h0
    apply hne
    have hl := hperm.length_eq
    rw [h0] at hl
    exact List.length_eq_zero.mp hl.symm
  set sorted := keys.mergeSort keyLe with hsorted
  set maxW := jsMax (sorted.map KeyModel.width) with hmaxW
  set maxH := jsMax (sorted.map KeyModel.height) with hmaxH
  set perRow := (max 1 ⌊(pageW - margin * 2 + gap) / (maxW + gap)⌋).toNat with hperRow
  have hout : cutReflowKeys gap pageW margin keys =
      cutArrange margin maxW maxH gap perRow 0 sorted := by
    simp only [cutReflowKeys, if_neg hsne, ← hsorted, ← hmaxW, ← hmaxH, ← hperRow]
  have hmem : ∀ k ∈ sorted, k ∈ keys := fun k hk => hperm.mem_iff.mp hk
  have hwle : ∀ k ∈ sorted, k.width ≤ maxW := fun k hk =>
    le_jsMax _ _ (List.mem_map_of_mem KeyModel.width hk)
  have hhle : ∀ k ∈ sorted, k.height ≤ maxH := fun k hk =>
    le_jsMax _ _ (List.mem_map_of_mem KeyModel.height hk)
  obtain ⟨k0, hk0⟩ := List.exists_mem_of_ne_nil sorted hsne
  have hWpos : 0 < maxW := lt_of_lt_of_le (hsz k0 (hmem k0 hk0)).1 (hwle k0 hk0)
  have hHpos : 0 < maxH := lt_of_lt_of_le (hsz k0 (hmem k0 hk0)).2 (hhle k0 hk0)
  refine ⟨?_, ?_, ?_, ?_⟩
  · rw [hout, cutArrange_length, hperm.length_eq]
  · rw [hout]
    exact cutArrange_rotation margin maxW maxH gap perRow 0 sorted
  · rw [hout, cutArrange_map_strip]
    exact hperm.map stripPos
  · rw [hout, List.pairwise_iff_getElem]
    intro a b ha hb hab
    have ha2 : a < sorted.length := by rwa [cutArrange_length] at ha
    have hb2 : b < sorted.length := by rwa [cutArrange_length] at hb
    have hA := cutArrange_getElem? margin maxW maxH gap perRow 0 a sorted
    have hB := cutArrange_getElem? margin maxW maxH gap perRow 0 b sorted
    rw [List.getElem?_eq_getElem ha, List.getElem?_eq_getElem ha2] at hA
    rw [List.getElem?_eq_getElem hb, List.getElem?_eq_getElem hb2] at hB
    simp only [Option.map_some', Option.some.injEq, Nat.zero_add] at hA hB
    rw [hA, hB]
    have hcells : (a / perRow, a % perRow) ≠ (b / perRow, b % perRow) := by
      intro hcell
      have hd : a / perRow = b / perRow := congrArg Prod.fst hcell
      have hm : a % perRow = b % perRow := congrArg Prod.snd hcell
      have h1 := Nat.div_add_mod a perRow
      have h2 := Nat.div_add_mod b perRow
      have : a = b := by rw [← h1, ← h2, hd, hm]
      omega
    exact cutPlace_disjoint margin maxW maxH gap perRow hgap
      (sorted.get ⟨a, ha2⟩) (sorted.get ⟨b, hb2⟩) a b
      (hwle _ (List.getElem_mem ha2)) (hhle _ (List.getElem_mem ha2))
      (hwle _ (List.getElem_mem hb2)) (hhle _ (List.getElem_mem hb2))
      hWpos.le hHpos.le hcells

/-- C1: for every project with a non-empty key list (of valid
positive-size keys, per the data model) and positive gap, the cut-sheet
reflow (`buildCutProject`, and the identical `derivedKeys` computation
of the canvas in cut view) returns a key list of the same length, in
which every key's rotation is 0, no two keys' axis-aligned bounding
boxes overlap, and every input key appears exactly once with only its
`x`, `y` and `rotation` changed. -/
theorem c1_cut_sheet_reflow (p : ProjectModel) (gap : ℚ) (hgap : 0 < gap)
    (hne : p.layout.keys ≠ [])
    (hsz : ∀ k ∈ p.layout.keys, 0 < k.width ∧ 0 < k.height) :
    ((buildCutProject p gap).layout.keys.length = p.layout.keys.length ∧
     (∀ k ∈ (buildCutProject p gap).layout.keys, k.rotation = 0) ∧
     ((buildCutProject p gap).layout.keys.map stripPos).Perm (p.layout.keys.map stripPos) ∧
     List.Pairwise keysDisjoint (buildCutProject p gap).layout.keys) ∧
    ((derivedKeysCut p).length = p.layout.keys.length ∧
     (∀ k ∈ derivedKeysCut p, k.rotation = 0) ∧
     ((derivedKeysCut p).map stripPos).Perm (p.layout.keys.map stripPos) ∧
     List.Pairwise keysDisjoint (derivedKeysCut p)) :=
  ⟨c1_cut_reflow gap (paperSizeMm p.paper.size p.paper.orient).1 p.paper.marginMm
     p.layout.keys hgap hne hsz,
   c1_cut_reflow (4/5) (paperSizeMm p.paper.size p.paper.orient).1 p.paper.marginMm
     p.layout.keys (by norm_num) hne hsz⟩

/-- A concrete two-key project for the C1 witness. -/
def c1Proj : ProjectModel :=
  { defaultProject with layout :=
      { id := 0, name := "L"
        keys := [{ stdKey with id := 1, x := 30, y := 40 },
                 { stdKey with id := 2, width := 12, height := 10 }] } }

/-- C1 witness: the reflow theorem applied to a concrete two-key
project with the production gap 0.3 mm. -/
theorem c1_cut_sheet_reflow_witness :
    ((0 : ℚ) < 3/10 ∧ c1Proj.layout.keys ≠ [] ∧
     (∀ k ∈ c1Proj.layout.keys, 0 < k.width ∧ 0 < k.height)) ∧
    (((buildCutProject c1Proj (3/10)).layout.keys.length = c1Proj.layout.keys.length ∧
      (∀ k ∈ (buildCutProject c1Proj (3/10)).layout.keys, k.rotation = 0) ∧
      ((buildCutProject c1Proj (3/10)).layout.keys.map stripPos).Perm
        (c1Proj.layout.keys.map stripPos) ∧
      List.Pairwise keysDisjoint (buildCutProject c1Proj (3/10)).layout.keys) ∧
     ((derivedKeysCut c1Proj).length = c1Proj.layout.keys.length ∧
      (∀ k ∈ derivedKeysCut c1Proj, k.rotation = 0) ∧
      ((derivedKeysCut c1Proj).map stripPos).Perm (c1Proj.layout.keys.map stripPos) ∧
      List.Pairwise keysDisjoint (derivedKeysCut c1Proj))) :=
  ⟨⟨by norm_num,
    by simp [c1Proj],
    by
      intro k hk
      simp only [c1Proj, defaultProject, List.mem_cons, List.not_mem_nil, or_false] at hk
      rcases hk with rfl | rfl <;> norm_num [stdKey]⟩,
   c1_cut_sheet_reflow c1Proj (3/10) (by norm_num)
     (by simp [c1Proj])
     (by
       intro k hk
       simp only [c1Proj, defaultProject, List.mem_cons, List.not_mem_nil, or_false] at hk
       rcases hk with rfl | rfl <;> norm_num [stdKey])⟩

/-! ## C2: placement solver for new keys -/

/-- `DEFAULT_KEY_SIZE` from `src/utils/keys.ts` (13.5 mm). -/
def DEFAULT_KEY_SIZE : ℚ := 27/2

/-- `DEFAULT_KEY_GAP` from `src/utils/keys.ts` (2 mm). -/
def DEFAULT_KEY_GAP : ℚ := 2

/-- Generic separation of two axis-aligned rectangles (one of the four
gaps-free disjuncts holds). -/
def rectsSeparated (x1 y1 w1 h1 x2 y2 w2 h2 : ℚ) : Prop :=
  x1 + w1 ≤ x2 ∨ x2 + w2 ≤ x1 ∨ y1 + h1 ≤ y2 ∨ y2 + h2 ≤ y1

instance (x1 y1 w1 h1 x2 y2 w2 h2 : ℚ) :
    Decidable (rectsSeparated x1 y1 w1 h1 x2 y2 w2 h2) := by
  unfold rectsSeparated; infer_instance

/-- The `collides` closure inside `addKey` (`src/state/store.ts`): the
candidate rectangle at `(x, y)` fails to keep a single `buffer = gap`
of separation from some existing key. -/
def placementBlocked (keys : List KeyModel) (width height x y : ℚ) : Prop :=
  ∃ k ∈ keys,
    ¬ (x + width + DEFAULT_KEY_GAP ≤ k.x ∨
       k.x + k.width + DEFAULT_KEY_GAP ≤ x ∨
       y + height + DEFAULT_KEY_GAP ≤ k.y ∨
       k.y + k.height + DEFAULT_KEY_GAP ≤ y)

instance (keys : List KeyModel) (w h x y : ℚ) :
    Decidable (placementBlocked keys w h x y) := by
  unfold placementBlocked; infer_instance

/-- Number of grid steps `for (let v = 0; v < 800; v += step)` visits
for a positive `step`: all `j` with `j*step < 800`. -/
def scanCount (step : ℚ) : ℕ := (⌈(800 : ℚ) / step⌉).toNat

/-- The scan order of `addKey`'s nested loops: row index `j` (the `y`
loop) outer, column index `i` (the `x` loop) inner. -/
def scanCells (width height : ℚ) : List (ℕ × ℕ) :=
  (List.range (scanCount (height + DEFAULT_KEY_GAP))).flatMap
    (fun j => (List.range (scanCount (width + DEFAULT_KEY_GAP))).map (fun i => (j, i)))

/-- The candidate position of a scan cell:
`(i * (width+gap), j * (height+gap))`. -/
def cellPos (width height : ℚ) (c : ℕ × ℕ) : ℚ × ℚ :=
  ((c.2 : ℚ) * (width + DEFAULT_KEY_GAP), (c.1 : ℚ) * (height + DEFAULT_KEY_GAP))

/-- The placement scan of `addKey` (`src/state/store.ts`): the first
non-colliding scanned cell, else the fallback `(placeX, placeY) =
(0, 0)` the loop's initialisation leaves behind. -/
def addKeyPos (keys : List KeyModel) (width height : ℚ) : ℚ × ℚ :=
  match (scanCells width height).find?
      (fun c => !decide (placementBlocked keys width height
        (cellPos width height c).1 (cellPos width height c).2)) with
  | some c => cellPos width height c
  | none => (0, 0)

/-- Modelled from the spec (C2's wording): the two rectangles, EACH
expanded by the gap on all sides, intersect. -/
def expandedRectsIntersect (x1 y1 w1 h1 x2 y2 w2 h2 g : ℚ) : Prop :=
  ¬ rectsSeparated (x1 - g) (y1 - g) (w1 + 2*g) (h1 + 2*g)
      (x2 - g) (y2 - g) (w2 + 2*g) (h2 + 2*g)

/-- A 900×900 mm key covering the whole scan area. -/
def bigKey : KeyModel := { stdKey with id := 10, width := 900, height := 900 }

/-- A default-size key at `(15.5, 0)` — exactly one gap away from the
origin cell. -/
def offsetKey : KeyModel :=
  { stdKey with id := 11, x := 31/2, width := 27/2, height := 27/2 }

theorem scanCount_step : scanCount (31/2) = 52 := by
  unfold scanCount
  have h : (⌈(800 : ℚ) / (31/2)⌉ = 52) := by
    rw [Int.ceil_eq_iff]
    norm_num
  rw [h]
  rfl

/-- C2 (counterexample): two failures of the claim as stated.
(a) Exhaustion: with a single 900×900 key at the origin (a trivially
non-overlapping layout) every scanned cell collides, so `addKey` falls
back to `(0, 0)` — a position whose rectangle overlaps the existing
key outright (never mind gap expansion).
(b) Even when the scan succeeds: with a single key at `(15.5, 0)`, the
first cell `(0, 0)` is accepted because the code only demands a single
2 mm `buffer`, yet the two GAP-EXPANDED rectangles of the claim's
wording do intersect (the claim would require a 4 mm separation). -/
theorem c2_placement_counterexample :
    (addKeyPos [bigKey] DEFAULT_KEY_SIZE DEFAULT_KEY_SIZE = (0, 0) ∧
     ¬ rectsSeparated 0 0 DEFAULT_KEY_SIZE DEFAULT_KEY_SIZE
         bigKey.x bigKey.y bigKey.width bigKey.height) ∧
    (List.Pairwise (fun a b => ¬ expandedRectsIntersect a.x a.y a.width a.height
        b.x b.y b.width b.height DEFAULT_KEY_GAP) [offsetKey] ∧
     addKeyPos [offsetKey] DEFAULT_KEY_SIZE DEFAULT_KEY_SIZE = (0, 0) ∧
     expandedRectsIntersect 0 0 DEFAULT_KEY_SIZE DEFAULT_KEY_SIZE
       offsetKey.x offsetKey.y offsetKey.width offsetKey.height DEFAULT_KEY_GAP) := by
  have hstep : DEFAULT_KEY_SIZE + DEFAULT_KEY_GAP = 31/2 := by
    norm_num [DEFAULT_KEY_SIZE, DEFAULT_KEY_GAP]
  have h52 : scanCount (DEFAULT_KEY_SIZE + DEFAULT_KEY_GAP) = 52 := by
    rw [hstep, scanCount_step]
  refine ⟨⟨?_, ?_⟩, List.pairwise_singleton _ _, ?_, ?_⟩
  · have hnone : (scanCells DEFAULT_KEY_SIZE DEFAULT_KEY_SIZE).find?
        (fun c => !decide (placementBlocked [bigKey] DEFAULT_KEY_SIZE DEFAULT_KEY_SIZE
          (cellPos DEFAULT_KEY_SIZE DEFAULT_KEY_SIZE c).1
          (cellPos DEFAULT_KEY_SIZE DEFAULT_KEY_SIZE c).2)) = none := by
      rw [List.find?_eq_none]
      intro c hc
      rcases List.mem_flatMap.mp hc with ⟨j, hj, hcm⟩
      rcases List.mem_map.mp hcm with ⟨i, hi, rfl⟩
      rw [List.mem_range, h52] at hj hi
      simp only [Bool.not_eq_true', decide_eq_false_iff_not, not_not]
      refine ⟨bigKey, by simp, ?_⟩
      intro hor
      have hi0 : (0 : ℚ) ≤ (i : ℚ) := by positivity
      have hj0 : (0 : ℚ) ≤ (j : ℚ) := by positivity
      have hi51 : (i : ℚ) ≤ 51 := by exact_mod_cast Nat.lt_succ_iff.mp hi
      have hj51 : (j : ℚ) ≤ 51 := by exact_mod_cast Nat.lt_succ_iff.mp hj
      have hq0 : (0 : ℚ) ≤ DEFAULT_KEY_SIZE + DEFAULT_KEY_GAP := by rw [hstep]; norm_num
      have hxu := mul_le_mul_of_nonneg_right hi51 hq0
      have hxl := mul_nonneg hi0 hq0
      have hyu := mul_le_mul_of_nonneg_right hj51 hq0
      have hyl := mul_nonneg hj0 hq0
      rw [hstep] at hxu hxl hyu hyl
      simp only [cellPos, bigKey, stdKey, DEFAULT_KEY_SIZE, DEFAULT_KEY_GAP, hstep] at hor
      rcases hor with h | h | h | h <;> linarith
    simp only [addKeyPos, hnone]
  · norm_num [rectsSeparated, bigKey, stdKey, DEFAULT_KEY_SIZE]
  · have hsc : ∃ rest, scanCells DEFAULT_KEY_SIZE DEFAULT_KEY_SIZE =
        ((0, 0) : ℕ × ℕ) :: rest := by
      unfold scanCells
      simp only [h52]
      rw [show (52 : ℕ) = 51 + 1 from rfl, List.range_succ_eq_map, List.flatMap_cons,
        List.map_cons, List.cons_append]
      exact ⟨_, rfl⟩
    obtain ⟨rest, hrest⟩ := hsc
    have hfind : (scanCells DEFAULT_KEY_SIZE DEFAULT_KEY_SIZE).find?
        (fun c => !decide (placementBlocked [offsetKey] DEFAULT_KEY_SIZE DEFAULT_KEY_SIZE
          (cellPos DEFAULT_KEY_SIZE DEFAULT_KEY_SIZE c).1
          (cellPos DEFAULT_KEY_SIZE DEFAULT_KEY_SIZE c).2)) = some (0, 0) := by
      rw [hrest]
      apply List.find?_cons_of_pos
      rw [Bool.not_eq_true', decide_eq_false_iff_not]
      intro hblk
      rcases hblk with ⟨k, hk, hnot⟩
      rw [List.mem_singleton] at hk
      subst hk
      apply hnot
      left
      norm_num [cellPos, offsetKey, stdKey, DEFAULT_KEY_SIZE, DEFAULT_KEY_GAP]
    simp only [addKeyPos, hfind]
    norm_num [cellPos, Prod.ext_iff]
  · norm_num [expandedRectsIntersect, rectsSeparated, offsetKey, stdKey,
      DEFAULT_KEY_SIZE, DEFAULT_KEY_GAP]

/-- C2 (amended): whenever some scanned grid cell is collision-free,
`addKey` returns a scanned cell at which the new key keeps at least the
2 mm gap from every existing key's (unexpanded) rectangle — i.e. the
returned position is not `placementBlocked`.  (When no scanned cell is
free, the solver falls back to `(0, 0)`, which may overlap — the
documented accepted-overlap fallback.) -/
theorem c2_placement_solver (keys : List KeyModel) (width height : ℚ)
    (hfree : ∃ c ∈ scanCells width height,
      ¬ placementBlocked keys width height
          (cellPos width height c).1 (cellPos width height c).2) :
    ¬ placementBlocked keys width height
        (addKeyPos keys width height).1 (addKeyPos keys width height).2 := by
  have hp : ∃ c ∈ scanCells width height,
      (fun c => !decide (placementBlocked keys width height
        (cellPos width height c).1 (cellPos width height c).2)) c = true := by
    obtain ⟨c, hc, hnb⟩ := hfree
    exact ⟨c, hc, by simpa using hnb⟩
  have hsome := List.find?_isSome.mpr hp
  obtain ⟨c, hc⟩ := Option.isSome_iff_exists.mp hsome
  have hpred := List.find?_some hc
  simp only [addKeyPos, hc]
  simpa using hpred

/-- A default-size key at `(20, 0)`, far enough that the origin cell is
free. -/
def farKey : KeyModel := { stdKey with id := 12, x := 20, width := 27/2, height := 27/2 }

/-- C2 witness: the amended solver theorem applied to one existing key
at `(20, 0)`; the origin cell is free and the returned position keeps
the gap from it. -/
theorem c2_placement_solver_witness :
    (∃ c ∈ scanCells DEFAULT_KEY_SIZE DEFAULT_KEY_SIZE,
      ¬ placementBlocked [farKey] DEFAULT_KEY_SIZE DEFAULT_KEY_SIZE
          (cellPos DEFAULT_KEY_SIZE DEFAULT_KEY_SIZE c).1
          (cellPos DEFAULT_KEY_SIZE DEFAULT_KEY_SIZE c).2) ∧
    ¬ placementBlocked [farKey] DEFAULT_KEY_SIZE DEFAULT_KEY_SIZE
        (addKeyPos [farKey] DEFAULT_KEY_SIZE DEFAULT_KEY_SIZE).1
        (addKeyPos [farKey] DEFAULT_KEY_SIZE DEFAULT_KEY_SIZE).2 := by
  have hstep : DEFAULT_KEY_SIZE + DEFAULT_KEY_GAP = 31/2 := by
    norm_num [DEFAULT_KEY_SIZE, DEFAULT_KEY_GAP]
  have h52 : scanCount (DEFAULT_KEY_SIZE + DEFAULT_KEY_GAP) = 52 := by
    rw [hstep, scanCount_step]
  have hmem : ((0, 0) : ℕ × ℕ) ∈ scanCells DEFAULT_KEY_SIZE DEFAULT_KEY_SIZE := by
    refine List.mem_flatMap.mpr ⟨0, ?_, List.mem_map.mpr ⟨0, ?_, rfl⟩⟩ <;>
      · rw [List.mem_range, h52]; norm_num
  have hok : ¬ placementBlocked [farKey] DEFAULT_KEY_SIZE DEFAULT_KEY_SIZE
      (cellPos DEFAULT_KEY_SIZE DEFAULT_KEY_SIZE (0, 0)).1
      (cellPos DEFAULT_KEY_SIZE DEFAULT_KEY_SIZE (0, 0)).2 := by
    intro hblk
    rcases hblk with ⟨k, hk, hnot⟩
    rw [List.mem_singleton] at hk
    subst hk
    apply hnot
    left
    norm_num [cellPos, farKey, stdKey, DEFAULT_KEY_SIZE, DEFAULT_KEY_GAP]
  exact ⟨⟨(0, 0), hmem, hok⟩,
    c2_placement_solver [farKey] DEFAULT_KEY_SIZE DEFAULT_KEY_SIZE ⟨(0, 0), hmem, hok⟩⟩
